import Mathlib

/-
Verification development for the teachers notification bot.

The Go sources are shallowly embedded: each definition below mirrors one
function of the repository (file and function named in its doc comment).
Machine time is modelled as an abstract integer instant (think minutes),
calendar dates as explicit year/month/day records, and the database as
in-memory lists of rows.  Fallible repository operations return `Except`.
-/

namespace TNB

/-- Instants (e.g. `time.Now()` results, `remind_at`, `created_at`) are
modelled as integers; one hour is 60 units (minutes). -/
abbrev Time := Int

/-- One hour, for `time.Now().Add(1 * time.Hour)`. -/
def oneHour : Time := 60

/-- A calendar date, as stored in the `DATE` column `cycle_date`. -/
structure Date where
  year : Int
  month : Int
  day : Int
deriving DecidableEq, Repr

/-- A Go `time.Time` value: a calendar date plus a time of day (the location
is elided; all embedded comparisons are location-local). -/
structure Timestamp where
  date : Date
  hour : Int
  minute : Int
  second : Int
deriving DecidableEq, Repr

/-- Mirrors `time.Date(t.Year(), t.Month(), t.Day(), 0, 0, 0, 0, t.Location())`
from `GetCycleByDateAndType` (postgres_notification_repository.go). -/
def dateOnly (t : Timestamp) : Timestamp :=
  { t with hour := 0, minute := 0, second := 0 }

/-- `notification.ReportKey` (internal/domain/notification/shared_types.go). -/
inductive ReportKey
  | table1Lessons   -- "TABLE_1_LESSONS"
  | table3Schedule  -- "TABLE_3_SCHEDULE"
  | table2OTV       -- "TABLE_2_OTV"
deriving DecidableEq, Repr

/-- `notification.InteractionStatus` (shared_types.go), together with the
`NEXT_DAY_REMINDER_SENT` value the final service revision uses. -/
inductive InteractionStatus
  | pendingQuestion          -- "PENDING_QUESTION"
  | answeredYes              -- "ANSWERED_YES"
  | answeredNo               -- "ANSWERED_NO"
  | awaitingReminder1H       -- "AWAITING_REMINDER_1H"
  | awaitingReminderNextDay  -- "AWAITING_REMINDER_NEXT_DAY"
  | nextDayReminderSent      -- "NEXT_DAY_REMINDER_SENT"
deriving DecidableEq, Repr

/-- `notification.CycleType` (shared_types.go). -/
inductive CycleType
  | midMonth  -- "MID_MONTH"
  | endMonth  -- "END_MONTH"
deriving DecidableEq, Repr

/-- `teacher.Teacher` (internal/domain/teacher): the fields the notification
service reads. -/
structure Teacher where
  id : Int
  telegramId : Int
  firstName : String
  lastName : Option String
  isActive : Bool
deriving DecidableEq, Repr

/-- `notification.Cycle` (internal/domain/notification/cycle.go); `cycleDate`
holds the `DATE` column value (time of day stripped by the column type). -/
structure Cycle where
  id : Int
  cycleDate : Date
  type : CycleType
  createdAt : Time
deriving DecidableEq, Repr

/-- `notification.ReportStatus` (internal/domain/notification/status.go) with
the `RemindAt` field the final service revision uses. -/
structure ReportStatus where
  id : Int
  teacherId : Int
  cycleId : Int
  reportKey : ReportKey
  status : InteractionStatus
  lastNotifiedAt : Option Time
  remindAt : Option Time
  responseAttempts : Nat
  createdAt : Time
  updatedAt : Time
deriving DecidableEq, Repr

/-- A (possibly non-unique) index of migrations/000001_init_schema.up.sql. -/
structure IndexDef where
  name : String
  table : String
  columns : List String
  unique : Bool
deriving DecidableEq, Repr

/-- A UNIQUE constraint of migrations/000001_init_schema.up.sql. -/
structure UniqueConstraintDef where
  name : String
  table : String
  columns : List String
deriving DecidableEq, Repr

/-- The CREATE INDEX statements of migrations/000001_init_schema.up.sql,
transliterated. Every one is a plain (non-unique) index. -/
def initSchemaIndexes : List IndexDef :=
  [ ⟨"idx_teachers_telegram_id", "teachers", ["telegram_id"], false⟩,
    ⟨"idx_teachers_is_active", "teachers", ["is_active"], false⟩,
    ⟨"idx_notification_cycles_cycle_date_type", "notification_cycles",
      ["cycle_date", "cycle_type"], false⟩,
    ⟨"idx_teacher_report_statuses_teacher_cycle", "teacher_report_statuses",
      ["teacher_id", "cycle_id"], false⟩,
    ⟨"idx_teacher_report_statuses_status", "teacher_report_statuses",
      ["status"], false⟩ ]

/-- The uniqueness declarations of migrations/000001_init_schema.up.sql: the
column-level UNIQUE on teachers.telegram_id and the named constraint
`teacher_cycle_report_unique`.  The `notification_cycles` table has none. -/
def initSchemaUniqueConstraints : List UniqueConstraintDef :=
  [ ⟨"teachers_telegram_id_key", "teachers", ["telegram_id"]⟩,
    ⟨"teacher_cycle_report_unique", "teacher_report_statuses",
      ["teacher_id", "cycle_id", "report_key"]⟩ ]

/-- Error values of internal/infra/database (ErrCycleNotFound,
ErrReportStatusNotFound, ErrDuplicateReportStatus) plus a generic
duplicate-key conflict and a generic transient failure. -/
inductive RepoErr
  | cycleNotFound
  | reportStatusNotFound
  | duplicateReportStatus
  | conflict
  | ioFailure
deriving DecidableEq, Repr

/-- The (teacher_id, cycle_id, report_key) triple guarded by the
`teacher_cycle_report_unique` constraint. -/
def tripleOf (r : ReportStatus) : Int × Int × ReportKey :=
  (r.teacherId, r.cycleId, r.reportKey)

/-- Row identity plus its unique triple; preserved by every UPDATE. -/
def keyOf (r : ReportStatus) : Int × Int × Int × ReportKey :=
  (r.id, r.teacherId, r.cycleId, r.reportKey)

/-- The store invariant enforced by `teacher_cycle_report_unique`: no two
rows share a (teacher_id, cycle_id, report_key) triple. -/
def uniqueTriples (l : List ReportStatus) : Prop :=
  (l.map tripleOf).Nodup

/-- At most one cycle row per (cycle_date, cycle_type) pair. -/
def cyclePairUnique (cycles : List Cycle) : Prop :=
  (cycles.map (fun c => (c.cycleDate, c.type))).Nodup

/-- `GetReportStatus` (postgres_notification_repository.go): lookup by the
(teacher_id, cycle_id, report_key) composite key. -/
def getReportStatus (reports : List ReportStatus) (teacherId cycleId : Int)
    (key : ReportKey) : Option ReportStatus :=
  reports.find? (fun r =>
    r.teacherId == teacherId && r.cycleId == cycleId && r.reportKey == key)

/-- `GetReportStatusByID` (postgres_notification_repository.go). -/
def getReportStatusById (reports : List ReportStatus) (id : Int) :
    Option ReportStatus :=
  reports.find? (fun r => r.id == id)

/-- `GetByID` of the teacher repository
(internal/infra/database/postgres_teacher_repository.go). -/
def findTeacherById (teachers : List Teacher) (id : Int) : Option Teacher :=
  teachers.find? (fun t => t.id == id)

/-- `ListActive` (postgres_teacher_repository.go):
`WHERE is_active = TRUE` (the name ordering is irrelevant here and the
stored order is kept). -/
def listActiveTeachers (teachers : List Teacher) : List Teacher :=
  teachers.filter (fun t => t.isActive)

/-- The SET clause of the `UpdateReportStatus` present in the sources
(postgres_notification_repository.go): `SET status = $1,
last_notified_at = $2, response_attempts = $3, updated_at = NOW()`, applied
to the row whose id matches; `remind_at` is NOT in the SET list. -/
def applyPgUpdate (rs : ReportStatus) (now : Time) (r : ReportStatus) :
    ReportStatus :=
  if r.id == rs.id then
    { r with status := rs.status, lastNotifiedAt := rs.lastNotifiedAt,
             responseAttempts := rs.responseAttempts, updatedAt := now }
  else r

/-- `UpdateReportStatus` exactly as in the repository implementation present
in the sources (postgres_notification_repository.go): the stored
`remind_at` is left untouched, and ErrReportStatusNotFound is returned
exactly when no row has the id (`RETURNING` yields no row). -/
def updateReportStatusPg (reports : List ReportStatus) (rs : ReportStatus)
    (now : Time) : Except RepoErr (List ReportStatus) :=
  if reports.any (fun r => r.id == rs.id) then
    .ok (reports.map (applyPgUpdate rs now))
  else .error .reportStatusNotFound

/-- Full replace of the four mutable fields of the row whose id matches. -/
def applyFullUpdate (rs : ReportStatus) (now : Time) (r : ReportStatus) :
    ReportStatus :=
  if r.id == rs.id then
    { r with status := rs.status, lastNotifiedAt := rs.lastNotifiedAt,
             remindAt := rs.remindAt,
             responseAttempts := rs.responseAttempts, updatedAt := now }
  else r

/-- Modelled from the spec: the repository revision that matches the final
service (the one persisting `remind_at`, prescribed by task B012 step 2 but
absent from the sources) — "`update(row)` — full replace of mutable fields
(`status`, `last_notified_at`, `remind_at`, `response_attempts`); fails with
NotFound if the id no longer exists." -/
def updateReportStatusFull (reports : List ReportStatus) (rs : ReportStatus)
    (now : Time) : Except RepoErr (List ReportStatus) :=
  if reports.any (fun r => r.id == rs.id) then
    .ok (reports.map (applyFullUpdate rs now))
  else .error .reportStatusNotFound

/-- Modelled from the spec: `ListDueReminders` — its implementation is absent
from the sources (only the interface in
internal/domain/notification/repository.go and task B012's query) —
"`listDueFirstReminders(status=..., remind_at <= now)` — the 1-hour
escalation queue, read as a poll".  The `ORDER BY remind_at ASC` is dropped:
no claim depends on the order. -/
def listDueReminders (reports : List ReportStatus)
    (target : InteractionStatus) (now : Time) : List ReportStatus :=
  reports.filter (fun r =>
    r.status == target &&
      match r.remindAt with
      | some due => decide (due ≤ now)
      | none => false)

/-- `AreAllReportsConfirmedForTeacher` (postgres_notification_repository.go):
early `true` for an empty key list, otherwise a COUNT(*) of rows of that
teacher and cycle whose key is among the expected ones and whose status is
not ANSWERED_YES, compared with zero. -/
def areAllReportsConfirmedForTeacher (reports : List ReportStatus)
    (teacherId cycleId : Int) (expectedKeys : List ReportKey) : Bool :=
  if expectedKeys.isEmpty then true
  else
    (reports.filter (fun r =>
      r.teacherId == teacherId && r.cycleId == cycleId &&
        expectedKeys.contains r.reportKey &&
        r.status != InteractionStatus.answeredYes)).length == 0

/-- Fresh SERIAL id for `notification_cycles`. -/
def nextCycleId (cycles : List Cycle) : Int :=
  (cycles.foldl (fun m c => max m c.id) 0) + 1

/-- Fresh BIGSERIAL id for `teacher_report_statuses`. -/
def nextReportId (reports : List ReportStatus) : Int :=
  (reports.foldl (fun m r => max m r.id) 0) + 1

/-- `CreateCycle` (postgres_notification_repository.go): plain INSERT into
`notification_cycles`.  The `DATE` column keeps only the calendar date of
the given timestamp; `created_at` defaults to NOW().  The schema has no
unique constraint on (cycle_date, cycle_type), so the insert always
succeeds; the created row and the new table are returned. -/
def createCycle (cycles : List Cycle) (cycleDate : Timestamp)
    (ty : CycleType) (now : Time) : Cycle × List Cycle :=
  let c : Cycle := ⟨nextCycleId cycles, (dateOnly cycleDate).date, ty, now⟩
  (c, cycles ++ [c])

/-- `ORDER BY created_at DESC LIMIT 1` over a candidate list: keeps a row
whose `created_at` is maximal (the first of the scan on ties). -/
def pickLatestCreated : List Cycle → Option Cycle
  | [] => none
  | c :: rest =>
      some (rest.foldl (fun best x =>
        if best.createdAt < x.createdAt then x else best) c)

/-- `GetCycleByDateAndType` (postgres_notification_repository.go): the
query parameter is first normalized to midnight of its calendar day
(`dateOnly`), rows are matched on `cycle_date = $1 AND cycle_type = $2`, and
`ORDER BY created_at DESC LIMIT 1` picks the most recently created match;
ErrCycleNotFound when there is none. -/
def getCycleByDateAndType (cycles : List Cycle) (t : Timestamp)
    (ty : CycleType) : Except RepoErr Cycle :=
  match pickLatestCreated (cycles.filter (fun c =>
      c.cycleDate == (dateOnly t).date && c.type == ty)) with
  | some c => .ok c
  | none => .error .cycleNotFound

/-- A report-status row as staged by `InitiateNotificationProcess` before
`BulkCreateReportStatuses` assigns its id and timestamps (the bulk INSERT's
column list omits `remind_at`, which therefore defaults to NULL). -/
structure NewReportStatus where
  teacherId : Int
  cycleId : Int
  reportKey : ReportKey
  status : InteractionStatus
  lastNotifiedAt : Option Time
  responseAttempts : Nat
deriving DecidableEq, Repr

/-- The row a bulk INSERT produces from a staged value. -/
def insertedRow (id : Int) (b : NewReportStatus) (now : Time) : ReportStatus :=
  ⟨id, b.teacherId, b.cycleId, b.reportKey, b.status, b.lastNotifiedAt,
    none, b.responseAttempts, now, now⟩

/-- Loop body of `BulkCreateReportStatuses`
(postgres_notification_repository.go): the statements run one by one inside
a single transaction; the first insert violating
`teacher_cycle_report_unique` makes the function return
ErrDuplicateReportStatus (wrapped), and the deferred rollback discards every
insert of the batch — an error result therefore leaves the table unchanged. -/
def bulkCreateGo (acc : List ReportStatus) (now : Time) :
    List NewReportStatus → Except RepoErr (List ReportStatus)
  | [] => .ok acc
  | b :: rest =>
      if acc.any (fun r =>
          r.teacherId == b.teacherId && r.cycleId == b.cycleId &&
            r.reportKey == b.reportKey) then
        .error .duplicateReportStatus
      else
        bulkCreateGo (acc ++ [insertedRow (nextReportId acc) b now]) now rest

/-- `BulkCreateReportStatuses` (postgres_notification_repository.go). -/
def bulkCreateReportStatuses (reports : List ReportStatus)
    (batch : List NewReportStatus) (now : Time) :
    Except RepoErr (List ReportStatus) :=
  bulkCreateGo reports now batch

/-- Tags for the messages the service pushes through the Telegram client;
`question k` is the question message for report key `k`, with its two
answer buttons bound to the row's id. -/
inductive MsgTag
  | question (k : ReportKey)
  | noAck
  | managerDone
  | teacherThanks
deriving DecidableEq, Repr

/-- One delivered Telegram message (recipient chat id and what was sent). -/
structure SentMessage where
  chatId : Int
  tag : MsgTag
deriving DecidableEq, Repr

/-- The world the service operates on: the three tables and the trace of
messages delivered so far.  Message sending is modelled as always
succeeding. -/
structure ServiceState where
  teachers : List Teacher
  cycles : List Cycle
  reports : List ReportStatus
  sent : List SentMessage
deriving DecidableEq, Repr

/-- Service-level errors surfaced by NotificationServiceImpl. -/
inductive SvcErr
  | failedToGetCycle (e : RepoErr)
  | failedToCreateCycle (e : RepoErr)
  | teacherFetchFailed
  | statusFetchFailed
  | wrongStatusForSend (s : InteractionStatus)
  | updateFailed
deriving DecidableEq, Repr

/-- `determineReportsForCycle` (internal/app/notification_service.go): the
fixed, ordered report-key list per cycle type. -/
def determineReportsForCycle : CycleType → List ReportKey
  | .midMonth => [.table1Lessons, .table3Schedule]
  | .endMonth => [.table1Lessons, .table3Schedule, .table2OTV]

/-- `determineNextReportKey` (notification_service.go): walk the cycle's
keys in order; a missing row is treated as pending and returned, as is the
first row whose status is not ANSWERED_YES; `none` stands for the Go
empty-string result when every key is confirmed.  (The ignored
`currentAnsweredKey` parameter of the Go function is dropped.) -/
def determineNextReportKey (reports : List ReportStatus)
    (teacherId cycleId : Int) : List ReportKey → Option ReportKey
  | [] => none
  | key :: rest =>
      match getReportStatus reports teacherId cycleId key with
      | none => some key
      | some rs =>
          if rs.status != InteractionStatus.answeredYes then some key
          else determineNextReportKey reports teacherId cycleId rest

/-- The spec's own words for the next-question rule, for comparison with
`determineNextReportKey`: "scan the expected keys in their fixed order and
find the first whose row is not ANSWERED_YES (a row literally missing is
treated as pending)". -/
def firstUnconfirmedKeySpec (reports : List ReportStatus)
    (teacherId cycleId : Int) (keys : List ReportKey) : Option ReportKey :=
  keys.find? (fun key =>
    match getReportStatus reports teacherId cycleId key with
    | none => true
    | some rs => rs.status != InteractionStatus.answeredYes)

/-- `sendSpecificReportQuestion` (notification_service.go, final revision):
fetch the row by composite key; refuse (with an error) unless its status is
PENDING_QUESTION; send the question with fresh buttons; then set
`last_notified_at = now` and status PENDING_QUESTION through the repository
update (an update failure is only logged, so the send still counts). -/
def sendSpecificReportQuestion (st : ServiceState) (teacherInfo : Teacher)
    (cycleId : Int) (key : ReportKey) (now : Time) :
    Except SvcErr ServiceState :=
  match getReportStatus st.reports teacherInfo.id cycleId key with
  | none => .error .statusFetchFailed
  | some rs =>
      if rs.status != InteractionStatus.pendingQuestion then
        .error (.wrongStatusForSend rs.status)
      else
        let st1 := { st with
          sent := st.sent ++ [⟨teacherInfo.telegramId, .question key⟩] }
        let rs' := { rs with lastNotifiedAt := some now,
                             status := InteractionStatus.pendingQuestion }
        match updateReportStatusFull st1.reports rs' now with
        | .error _ => st1 |> .ok
        | .ok reports' => .ok { st1 with reports := reports' }

/-- `ProcessTeacherNoResponse` (notification_service.go, final revision,
lines 860-918): a missing row is a stale callback (no-op success); a row
already AWAITING_REMINDER_1H is a duplicate click (no-op); otherwise the
teacher is fetched, the row is set to AWAITING_REMINDER_1H with
`remind_at = now + 1h` and persisted, and the acknowledgement message is
sent.  `response_attempts` is not touched. -/
def processTeacherNoResponse (st : ServiceState) (now : Time)
    (reportStatusId : Int) : Except SvcErr ServiceState :=
  match getReportStatusById st.reports reportStatusId with
  | none => .ok st
  | some rs =>
      if rs.status = InteractionStatus.awaitingReminder1H then .ok st
      else
        match findTeacherById st.teachers rs.teacherId with
        | none => .error .teacherFetchFailed
        | some t =>
            match updateReportStatusFull st.reports
                { rs with status := InteractionStatus.awaitingReminder1H,
                          remindAt := some (now + oneHour),
                          updatedAt := now } now with
            | .error _ => .error .updateFailed
            | .ok reports' =>
                .ok { st with reports := reports',
                              sent := st.sent ++ [⟨t.telegramId, .noAck⟩] }

/-- One iteration of the loop of `ProcessScheduled1HourReminders`
(notification_service.go, final revision): fetch the teacher (skip on
failure), re-send the question via `sendSpecificReportQuestion` (skip on
failure, leaving the row due), then re-fetch the row and clear its
`remind_at` through the repository update. -/
def process1HourReminderRow (now : Time) (st : ServiceState)
    (rs : ReportStatus) : ServiceState :=
  match findTeacherById st.teachers rs.teacherId with
  | none => st
  | some t =>
      match sendSpecificReportQuestion st t rs.cycleId rs.reportKey now with
      | .error _ => st
      | .ok st1 =>
          match getReportStatusById st1.reports rs.id with
          | none => st1
          | some updated =>
              match updateReportStatusFull st1.reports
                  { updated with remindAt := none } now with
              | .error _ => st1
              | .ok reports' => { st1 with reports := reports' }

/-- `ProcessScheduled1HourReminders` (notification_service.go, final
revision, lines 920-979): list the rows with status AWAITING_REMINDER_1H
whose `remind_at` has passed and run the per-row step on each. -/
def processScheduled1HourReminders (st : ServiceState) (now : Time) :
    Except SvcErr ServiceState :=
  .ok ((listDueReminders st.reports InteractionStatus.awaitingReminder1H
      now).foldl (process1HourReminderRow now) st)

/-- The find-or-create cycle resolution of `InitiateNotificationProcess`
(notification_service.go, lines 534-554), with the results of the two
repository calls passed in as parameters: an existing cycle is returned; on
ErrCycleNotFound the create result is returned when it succeeded and its
error is surfaced (wrapped) when it failed — there is no re-fetch. -/
def resolveCycleStep (getRes : Except RepoErr Cycle)
    (createRes : Except RepoErr Cycle) : Except SvcErr Cycle :=
  match getRes with
  | .ok c => .ok c
  | .error .cycleNotFound =>
      match createRes with
      | .ok c => .ok c
      | .error e => .error (.failedToCreateCycle e)
  | .error e => .error (.failedToGetCycle e)

/-- Step 4 of `InitiateNotificationProcess` (notification_service.go): for
each active teacher and each report key of the cycle, stage a new
PENDING_QUESTION row exactly when `GetReportStatus` finds none (rows that
already exist are skipped). -/
def stageMissingStatuses (reports : List ReportStatus) (cycleId : Int)
    (teachers : List Teacher) (keys : List ReportKey) :
    List NewReportStatus :=
  teachers.flatMap (fun t =>
    (keys.filter (fun k =>
      (getReportStatus reports t.id cycleId k).isNone)).map
      (fun k => ⟨t.id, cycleId, k, InteractionStatus.pendingQuestion,
        none, 0⟩))

/-- Step 5 of `InitiateNotificationProcess` (notification_service.go): for
one active teacher, fetch the TABLE_1 row (skip the teacher when missing or
not PENDING_QUESTION), send the first question, and record
`last_notified_at = now` through the repository update (a failed update is
only logged). -/
def sendInitialTable1 (cycleId : Int) (now : Time) (st : ServiceState)
    (t : Teacher) : ServiceState :=
  match getReportStatus st.reports t.id cycleId ReportKey.table1Lessons with
  | none => st
  | some rs =>
      if rs.status = InteractionStatus.pendingQuestion then
        let st1 := { st with
          sent := st.sent ++ [⟨t.telegramId, .question .table1Lessons⟩] }
        match updateReportStatusFull st1.reports
            { rs with lastNotifiedAt := some now } now with
        | .error _ => st1
        | .ok reports' => { st1 with reports := reports' }
      else st

/-- Step 1 of `InitiateNotificationProcess` (notification_service.go,
lines 534-554) in the sequential model: the lookup is retried as a create
only on ErrCycleNotFound; since the schema has no unique constraint on
(cycle_date, cycle_type), the create cannot conflict and always succeeds.
Returns the resolved cycle and the (possibly grown) cycles table. -/
def resolveOrCreateCycle (cycles : List Cycle) (cycleDate : Timestamp)
    (ty : CycleType) (now : Time) : Cycle × List Cycle :=
  match getCycleByDateAndType cycles cycleDate ty with
  | .ok c => (c, cycles)
  | .error _ => createCycle cycles cycleDate ty now

/-- Steps 4-5 of `InitiateNotificationProcess` on the report table: stage
the missing rows and bulk-create them when any were staged; a bulk error is
only logged and the old table stands. -/
def initiateReports (reports : List ReportStatus) (cycleId : Int)
    (actives : List Teacher) (keys : List ReportKey) (now : Time) :
    List ReportStatus :=
  if (stageMissingStatuses reports cycleId actives keys).isEmpty then reports
  else
    match bulkCreateReportStatuses reports
        (stageMissingStatuses reports cycleId actives keys) now with
    | .ok rows => rows
    | .error _ => reports

/-- `InitiateNotificationProcess` (notification_service.go, final revision,
lines 525-647): resolve or create the cycle, stop when there is no active
teacher or no report key for the type, stage and bulk-create the missing
rows, and send the TABLE_1 question to each active teacher whose row is
still pending. -/
def initiateNotificationProcess (st : ServiceState) (now : Time)
    (ty : CycleType) (cycleDate : Timestamp) : ServiceState :=
  if (listActiveTeachers st.teachers).isEmpty then
    { st with cycles := (resolveOrCreateCycle st.cycles cycleDate ty now).2 }
  else if (determineReportsForCycle ty).isEmpty then
    { st with cycles := (resolveOrCreateCycle st.cycles cycleDate ty now).2 }
  else
    (listActiveTeachers st.teachers).foldl
      (sendInitialTable1 (resolveOrCreateCycle st.cycles cycleDate ty now).1.id
        now)
      { st with
          cycles := (resolveOrCreateCycle st.cycles cycleDate ty now).2,
          reports := initiateReports st.reports
            (resolveOrCreateCycle st.cycles cycleDate ty now).1.id
            (listActiveTeachers st.teachers) (determineReportsForCycle ty)
            now }

/-- Fixture: an active teacher. -/
def exTeacher : Teacher := ⟨1, 100, "Anna", none, true⟩

/-- Fixture: a MID_MONTH cycle. -/
def exCycle : Cycle := ⟨1, ⟨2024, 5, 15⟩, .midMonth, 0⟩

/-- Fixture: the pending TABLE_1 row of the teacher in the cycle. -/
def exRowPending : ReportStatus :=
  ⟨1, 1, 1, .table1Lessons, .pendingQuestion, none, none, 0, 0, 0⟩

/-- Fixture: the state right after the TABLE_1 question was asked. -/
def exStateNo : ServiceState := ⟨[exTeacher], [exCycle], [exRowPending], []⟩

/-- Fixture: the TABLE_1 row as a No click at time 0 arms it
(status AWAITING_REMINDER_1H, remind_at = 60). -/
def exRowDue : ReportStatus :=
  ⟨1, 1, 1, .table1Lessons, .awaitingReminder1H, some 0, some 60, 0, 0, 0⟩

/-- Fixture: the armed state, to be swept one hour later. -/
def exStateDue : ServiceState := ⟨[exTeacher], [exCycle], [exRowDue], []⟩

/-- Fixture: a bulk batch whose first element collides with
`exRowPending` on (teacher_id, cycle_id, report_key) while its second
element (same teacher, TABLE_3) is fresh. -/
def exBatchDup : List NewReportStatus :=
  [ ⟨1, 1, .table1Lessons, .pendingQuestion, none, 0⟩,
    ⟨1, 1, .table3Schedule, .pendingQuestion, none, 0⟩ ]

/-- Fixture: two cycles sharing (cycle_date, cycle_type), created at times
1 and 2. -/
def exCycleOld : Cycle := ⟨1, ⟨2024, 5, 15⟩, .midMonth, 1⟩

/-- Fixture: the younger duplicate of `exCycleOld`. -/
def exCycleNew : Cycle := ⟨2, ⟨2024, 5, 15⟩, .midMonth, 2⟩

/-- Fixture: a cycles table holding the duplicated pair. -/
def exCyclePair : List Cycle := [exCycleOld, exCycleNew]

/-- Fixture: a mid-morning timestamp on the duplicated cycle date. -/
def exTs : Timestamp := ⟨⟨2024, 5, 15⟩, 9, 30, 0⟩

/-- Fixture: a state with one active teacher and empty notification
tables, for exercising `initiateNotificationProcess`. -/
def exStateInit : ServiceState := ⟨[exTeacher], [], [], []⟩

/-! Helper lemmas shared by several claims. -/

/-- `keyOf` factors `tripleOf`. -/
theorem tripleOf_eq_snd_keyOf (r : ReportStatus) :
    tripleOf r = (keyOf r).2 := rfl

/-- The triple scan is the second projection of the key scan. -/
theorem map_tripleOf_eq (l : List ReportStatus) :
    l.map tripleOf = (l.map keyOf).map Prod.snd := by
  rw [List.map_map]
  rfl

/-- The full update keeps every identifying field of every row. -/
theorem applyFullUpdate_keyOf (rs : ReportStatus) (now : Time)
    (r : ReportStatus) : keyOf (applyFullUpdate rs now r) = keyOf r := by
  unfold applyFullUpdate
  split <;> rfl

/-- A successful full update leaves the id-and-triple scan of the table
unchanged. -/
theorem updateReportStatusFull_ok_keyOf (l l' : List ReportStatus)
    (rs : ReportStatus) (now : Time)
    (h : updateReportStatusFull l rs now = .ok l') :
    l'.map keyOf = l.map keyOf := by
  unfold updateReportStatusFull at h
  split at h
  · cases h
    rw [List.map_map]
    exact List.map_congr_left fun r _ => applyFullUpdate_keyOf rs now r
  · cases h

/-- Stripping the time of day leaves the calendar date. -/
theorem dateOnly_date (t : Timestamp) : (dateOnly t).date = t.date := rfl

/-! C5 — behaviour of `BulkCreateReportStatuses` on duplicates. -/

/-- The only error `bulkCreateGo` can return is the duplicate-key one. -/
theorem bulkCreateGo_error_duplicate (now : Time) (batch : List NewReportStatus) :
    ∀ acc : List ReportStatus,
      (∃ l', bulkCreateGo acc now batch = .ok l') ∨
        bulkCreateGo acc now batch = .error .duplicateReportStatus := by
  induction batch with
  | nil => exact fun acc => .inl ⟨acc, rfl⟩
  | cons b rest ih =>
      intro acc
      unfold bulkCreateGo
      by_cases hdup : (acc.any fun r =>
          r.teacherId == b.teacherId && r.cycleId == b.cycleId &&
            r.reportKey == b.reportKey) = true
      · rw [if_pos hdup]
        exact .inr rfl
      · rw [if_neg hdup]
        exact ih _

/-- When the whole batch goes through, none of its elements collided with a
row already present when the batch started. -/
theorem bulkCreateGo_ok_not_mem (now : Time) (batch : List NewReportStatus) :
    ∀ acc l' : List ReportStatus,
      bulkCreateGo acc now batch = .ok l' →
      ∀ b ∈ batch,
        (b.teacherId, b.cycleId, b.reportKey) ∉ acc.map tripleOf := by
  induction batch with
  | nil =>
      intro acc l' _ b hb
      cases hb
  | cons b0 rest ih =>
      intro acc l' h b hb
      unfold bulkCreateGo at h
      by_cases hdup : (acc.any fun r =>
          r.teacherId == b0.teacherId && r.cycleId == b0.cycleId &&
            r.reportKey == b0.reportKey) = true
      · rw [if_pos hdup] at h
        cases h
      · rw [if_neg hdup] at h
        rcases List.mem_cons.mp hb with rfl | hb'
        · intro hmem
          apply hdup
          rw [List.any_eq_true]
          obtain ⟨r, hr, heq⟩ := List.mem_map.mp hmem
          simp only [tripleOf, Prod.mk.injEq] at heq
          exact ⟨r, hr, by simp [heq.1, heq.2.1, heq.2.2]⟩
        · intro hmem
          refine ih _ _ h b hb' ?_
          rw [List.map_append]
          exact List.mem_append_left _ hmem

/-- C5 counterexample: with the stored table holding the (teacher 1,
cycle 1, TABLE_1) row, a batch whose first element collides on that triple
and whose second element is fresh makes `BulkCreateReportStatuses` return
the duplicate-key error — the pre-existing row is treated as an error, and
since the transaction rolls back, the fresh sibling row is not persisted
either. -/
theorem bulkCreate_counterexample :
    bulkCreateReportStatuses [exRowPending] exBatchDup 5 =
      .error .duplicateReportStatus := rfl

/-- C5 (amended): a unique-constraint violation on any row of the batch
aborts the whole batch: `BulkCreateReportStatuses` returns the
duplicate-key error (and the enclosing transaction is rolled back, so no
row of the batch is persisted), instead of evaluating the siblings
independently. -/
theorem bulkCreate_aborts_on_duplicate (reports : List ReportStatus)
    (batch : List NewReportStatus) (now : Time)
    (h : ∃ b ∈ batch,
      (b.teacherId, b.cycleId, b.reportKey) ∈ reports.map tripleOf) :
    bulkCreateReportStatuses reports batch now =
      .error .duplicateReportStatus := by
  obtain ⟨b, hb, hmem⟩ := h
  rcases bulkCreateGo_error_duplicate now batch reports with ⟨l', hok⟩ | herr
  · exact absurd hmem (bulkCreateGo_ok_not_mem now batch reports l' hok b hb)
  · exact herr

/-- C5 witness: the amended abort behaviour at a concrete batch. -/
theorem bulkCreate_aborts_on_duplicate_witness :
    bulkCreateReportStatuses [exRowPending] exBatchDup 7 =
      .error .duplicateReportStatus :=
  bulkCreate_aborts_on_duplicate [exRowPending] exBatchDup 7 (by decide)

/-! C10 — `GetCycleByDateAndType`. -/

/-- The scan of `ORDER BY created_at DESC LIMIT 1` stays inside the
candidate list. -/
theorem foldl_best_mem (c0 : Cycle) (rest : List Cycle) :
    rest.foldl (fun best x =>
      if best.createdAt < x.createdAt then x else best) c0 ∈ c0 :: rest := by
  induction rest generalizing c0 with
  | nil => simp
  | cons x xs ih =>
      simp only [List.foldl_cons]
      have h := ih (if c0.createdAt < x.createdAt then x else c0)
      rw [List.mem_cons] at h
      rcases h with h | h
      · rw [h]
        split
        · exact List.mem_cons_of_mem _ (List.mem_cons_self _ _)
        · exact List.mem_cons_self _ _
      · exact List.mem_cons_of_mem _ (List.mem_cons_of_mem _ h)

/-- The scan result dominates the start value and every scanned row. -/
theorem foldl_best_max (c0 : Cycle) (rest : List Cycle) :
    c0.createdAt ≤ (rest.foldl (fun best x =>
        if best.createdAt < x.createdAt then x else best) c0).createdAt ∧
      ∀ x ∈ rest, x.createdAt ≤ (rest.foldl (fun best x =>
        if best.createdAt < x.createdAt then x else best) c0).createdAt := by
  induction rest generalizing c0 with
  | nil => exact ⟨le_refl _, by simp⟩
  | cons x xs ih =>
      simp only [List.foldl_cons]
      obtain ⟨h1, h2⟩ := ih (if c0.createdAt < x.createdAt then x else c0)
      constructor
      · refine le_trans ?_ h1
        split
        · next hlt => exact le_of_lt hlt
        · next => exact le_refl _
      · intro y hy
        rcases List.mem_cons.mp hy with rfl | hy
        · refine le_trans ?_ h1
          split
          · next => exact le_refl _
          · next hlt => exact le_of_not_lt hlt
        · exact h2 y hy

/-- An empty candidate list is the only way to get no pick. -/
theorem pickLatestCreated_eq_none (l : List Cycle) :
    pickLatestCreated l = none ↔ l = [] := by
  cases l <;> simp [pickLatestCreated]

/-- A successful pick is a candidate with maximal `created_at`. -/
theorem pickLatestCreated_spec (l : List Cycle) (c : Cycle)
    (h : pickLatestCreated l = some c) :
    c ∈ l ∧ ∀ x ∈ l, x.createdAt ≤ c.createdAt := by
  cases l with
  | nil => cases h
  | cons c0 rest =>
      unfold pickLatestCreated at h
      injection h with h
      subst h
      refine ⟨foldl_best_mem c0 rest, ?_⟩
      intro x hx
      obtain ⟨h1, h2⟩ := foldl_best_max c0 rest
      rcases List.mem_cons.mp hx with rfl | hx
      · exact h1
      · exact h2 x hx

/-- A successful `GetCycleByDateAndType` lookup returns a matching cycle
whose `created_at` dominates every matching cycle. -/
theorem getCycleByDateAndType_ok (cycles : List Cycle) (t : Timestamp)
    (ty : CycleType) (c : Cycle)
    (h : getCycleByDateAndType cycles t ty = .ok c) :
    c.cycleDate = t.date ∧ c.type = ty ∧
      ∀ x ∈ cycles, x.cycleDate = t.date → x.type = ty →
        x.createdAt ≤ c.createdAt := by
  unfold getCycleByDateAndType at h
  cases hp : pickLatestCreated (cycles.filter fun x =>
      x.cycleDate == (dateOnly t).date && x.type == ty) with
  | none =>
      rw [hp] at h
      cases h
  | some c' =>
      rw [hp] at h
      injection h with h
      subst h
      obtain ⟨hmem, hmax⟩ := pickLatestCreated_spec _ _ hp
      rw [List.mem_filter] at hmem
      obtain ⟨_, hcond⟩ := hmem
      simp only [Bool.and_eq_true, beq_iff_eq, dateOnly_date] at hcond
      refine ⟨hcond.1, hcond.2, ?_⟩
      intro x hx h1 h2
      exact hmax x (List.mem_filter.mpr ⟨hx, by simp [dateOnly_date, h1, h2]⟩)

/-- `GetCycleByDateAndType` reports ErrCycleNotFound exactly when no stored
cycle matches the normalized date and the type. -/
theorem getCycleByDateAndType_error_iff (cycles : List Cycle)
    (t : Timestamp) (ty : CycleType) :
    getCycleByDateAndType cycles t ty = .error .cycleNotFound ↔
      ∀ x ∈ cycles, ¬(x.cycleDate = t.date ∧ x.type = ty) := by
  unfold getCycleByDateAndType
  cases hp : pickLatestCreated (cycles.filter fun x =>
      x.cycleDate == (dateOnly t).date && x.type == ty) with
  | none =>
      rw [pickLatestCreated_eq_none, List.filter_eq_nil_iff] at hp
      simp only [Bool.and_eq_true, beq_iff_eq, dateOnly_date, not_and] at hp
      constructor
      · intro _ x hx
        intro hc
        exact hp x hx hc.1 hc.2
      · intro _
        rfl
  | some c =>
      obtain ⟨hmem, _⟩ := pickLatestCreated_spec _ _ hp
      rw [List.mem_filter] at hmem
      simp only [Bool.and_eq_true, beq_iff_eq, dateOnly_date] at hmem
      constructor
      · intro h
        cases h
      · intro h
        exact absurd ⟨hmem.2.1, hmem.2.2⟩ (h c hmem.1)

/-- C10: `GetCycleByDateAndType` ignores the time of day of the requested
timestamp (it is normalized to midnight of its calendar day before the
comparison); a successful lookup returns a cycle of the requested date and
type whose `created_at` dominates every other matching row (the most
recently created one); and ErrCycleNotFound is returned exactly when no
row matches. -/
theorem getCycleByDateAndType_spec (cycles : List Cycle) (t : Timestamp)
    (ty : CycleType) :
    (∀ h m s, getCycleByDateAndType cycles ⟨t.date, h, m, s⟩ ty =
        getCycleByDateAndType cycles t ty) ∧
    (∀ c, getCycleByDateAndType cycles t ty = .ok c →
        c.cycleDate = t.date ∧ c.type = ty ∧
          ∀ x ∈ cycles, x.cycleDate = t.date → x.type = ty →
            x.createdAt ≤ c.createdAt) ∧
    (getCycleByDateAndType cycles t ty = .error .cycleNotFound ↔
        ∀ x ∈ cycles, ¬(x.cycleDate = t.date ∧ x.type = ty)) :=
  ⟨fun _ _ _ => rfl,
   fun c hc => getCycleByDateAndType_ok cycles t ty c hc,
   getCycleByDateAndType_error_iff cycles t ty⟩

/-- C10 witness: on a table holding two cycles of the same (date, type)
created at times 1 and 2, the lookup (issued with a 09:30 time of day and
with a 23:59 one) picks the younger row. -/
theorem getCycleByDateAndType_spec_witness :
    exCycleOld.createdAt ≤ exCycleNew.createdAt ∧
    exCycleNew.cycleDate = exTs.date ∧
    getCycleByDateAndType exCyclePair ⟨exTs.date, 23, 59, 59⟩ .midMonth =
      getCycleByDateAndType exCyclePair exTs .midMonth := by
  have h := getCycleByDateAndType_spec exCyclePair exTs .midMonth
  have hok := h.2.1 exCycleNew (by rfl)
  exact ⟨hok.2.2 exCycleOld (by decide) (by decide) (by decide),
    hok.1, h.1 23 59 59⟩

/-! C4 — the find-or-create cycle resolution and creation conflicts. -/

/-- C4 counterexample: at the concrete input where the lookup reported
ErrCycleNotFound and the create step failed with a duplicate-key conflict,
the resolution of `InitiateNotificationProcess` returns the wrapped create
error — it does not re-fetch and return the existing cycle. -/
theorem resolveCycleStep_conflict_errors :
    resolveCycleStep (.error .cycleNotFound) (.error .conflict) =
      .error (.failedToCreateCycle .conflict) := rfl

/-- C4 (amended): whenever the cycle lookup reports ErrCycleNotFound and
the create step fails — with a duplicate-key Conflict or any other error —
the operation surfaces the wrapped create error to the caller instead of
re-fetching the existing cycle. -/
theorem resolveCycleStep_surfaces_create_error (e : RepoErr) :
    resolveCycleStep (.error .cycleNotFound) (.error e) =
      .error (.failedToCreateCycle e) := rfl

/-! C9 — `UpdateReportStatus` and the `remind_at` column. -/

/-- C9: evaluating the repository's `UpdateReportStatus` at a concrete row
shows that `status`, `last_notified_at` and `response_attempts` are
replaced and `updated_at` refreshed, but the stored `remind_at` stays NULL
even though the caller set it to 99 — the SET clause omits `remind_at`;
and the update of an absent id fails with ErrReportStatusNotFound. -/
theorem updateReportStatusPg_drops_remind_at :
    updateReportStatusPg
        [⟨1, 1, 1, .table1Lessons, .pendingQuestion, none, none, 0, 0, 0⟩]
        ⟨1, 1, 1, .table1Lessons, .awaitingReminder1H, some 4, some 99, 2, 0, 0⟩
        5 =
      .ok [⟨1, 1, 1, .table1Lessons, .awaitingReminder1H, some 4, none, 2, 0, 5⟩] ∧
    updateReportStatusPg []
        ⟨1, 1, 1, .table1Lessons, .awaitingReminder1H, some 4, some 99, 2, 0, 0⟩
        5 =
      .error .reportStatusNotFound := by
  constructor <;> rfl

/-! C6 — `AreAllReportsConfirmedForTeacher`. -/

/-- C6: `allConfirmed(teacher, cycle, expectedKeys)` is true exactly when
no stored row of that teacher and cycle whose key is among the expected
ones has a status other than ANSWERED_YES — so a missing row for an
expected key never makes the result false — and an empty expected-key list
yields true. -/
theorem areAllReportsConfirmed_spec (reports : List ReportStatus)
    (teacherId cycleId : Int) (keys : List ReportKey) :
    (areAllReportsConfirmedForTeacher reports teacherId cycleId keys = true ↔
      ∀ r ∈ reports, r.teacherId = teacherId → r.cycleId = cycleId →
        r.reportKey ∈ keys → r.status = InteractionStatus.answeredYes) ∧
    areAllReportsConfirmedForTeacher reports teacherId cycleId [] = true := by
  constructor
  · by_cases hk : keys.isEmpty
    · rw [List.isEmpty_iff] at hk
      subst hk
      simp [areAllReportsConfirmedForTeacher]
    · unfold areAllReportsConfirmedForTeacher
      rw [if_neg hk]
      simp only [beq_iff_eq, List.length_eq_zero, List.filter_eq_nil_iff]
      refine forall₂_congr fun r _ => ?_
      constructor
      · intro h h1 h2 h3
        by_contra hne
        exact h (by simp [h1, h2, h3, hne])
      · intro h hp
        simp only [Bool.and_eq_true, beq_iff_eq, bne_iff_ne, ne_eq] at hp
        obtain ⟨⟨⟨h1, h2⟩, h3⟩, h4⟩ := hp
        exact h4 (h h1 h2 (by simpa using h3))
  · simp [areAllReportsConfirmedForTeacher]

/-! C7 — the fixed question sequence and the next-question scan. -/

/-- C7: the question sequence is the fixed ordered list TABLE_1, TABLE_3,
TABLE_2, with MID_MONTH cycles expecting exactly the first two keys and
END_MONTH cycles all three; and `determineNextReportKey` selects the first
key of the given ordered list whose row is missing (treated as pending) or
has a status other than ANSWERED_YES. -/
theorem question_sequence_spec :
    determineReportsForCycle .midMonth = [.table1Lessons, .table3Schedule] ∧
    determineReportsForCycle .endMonth =
      [.table1Lessons, .table3Schedule, .table2OTV] ∧
    ∀ (reports : List ReportStatus) (teacherId cycleId : Int)
      (keys : List ReportKey),
      determineNextReportKey reports teacherId cycleId keys =
        firstUnconfirmedKeySpec reports teacherId cycleId keys := by
  refine ⟨rfl, rfl, fun reports teacherId cycleId keys => ?_⟩
  induction keys with
  | nil => rfl
  | cons key rest ih =>
      unfold determineNextReportKey firstUnconfirmedKeySpec
      cases h : getReportStatus reports teacherId cycleId key with
      | none =>
          dsimp only
          rw [List.find?_cons_of_pos]
          simp [h]
      | some rs =>
          dsimp only
          by_cases hs : rs.status != InteractionStatus.answeredYes
          · rw [if_pos hs, List.find?_cons_of_pos]
            simp [h, hs]
          · rw [if_neg hs, List.find?_cons_of_neg]
            · exact ih
            · simp only [h]
              simpa using hs

/-! C1 — `ProcessTeacherNoResponse`. -/

/-- The updates keep row ids. -/
theorem applyFullUpdate_id (rs : ReportStatus) (now : Time)
    (r : ReportStatus) : (applyFullUpdate rs now r).id = r.id := by
  unfold applyFullUpdate
  split <;> rfl

/-- Looking a row up by id commutes with an id-preserving row map. -/
theorem getReportStatusById_map (l : List ReportStatus) (sid : Int)
    (f : ReportStatus → ReportStatus) (hf : ∀ r, (f r).id = r.id) :
    getReportStatusById (l.map f) sid = (getReportStatusById l sid).map f := by
  unfold getReportStatusById
  rw [List.find?_map]
  have hp : ((fun r : ReportStatus => r.id == sid) ∘ f) =
      (fun r : ReportStatus => r.id == sid) := by
    funext r
    simp [Function.comp, hf]
  rw [hp]

/-- C1 counterexample: on the concrete state where the participant's
TABLE_1 row is PENDING_QUESTION with zero response attempts, a 'No' click
at time 5 leaves the row with status AWAITING_REMINDER_1H — not
ANSWERED_NO — and with `response_attempts` still 0, not incremented. -/
theorem processNo_counterexample :
    ((processTeacherNoResponse exStateNo 5 1).toOption.bind
        (fun st' => getReportStatusById st'.reports 1)).map
        (fun r => (r.status, r.responseAttempts)) =
      some (InteractionStatus.awaitingReminder1H, 0) ∧
    InteractionStatus.awaitingReminder1H ≠ InteractionStatus.answeredNo := by
  decide

/-- C1 (amended): for every existing report-status row that is not already
AWAITING_REMINDER_1H (and whose teacher exists), `ProcessTeacherNoResponse`
succeeds, transitions the row's status to AWAITING_REMINDER_1H, sets
`remind_at = now + 1h`, leaves `response_attempts` unchanged, persists the
row in place (ids and triples of the table are untouched), and sends the
acknowledgement to the teacher.  The status ANSWERED_NO is never assigned
and the attempt counter is never incremented. -/
theorem processNo_arms_reminder (st : ServiceState) (now : Time)
    (sid : Int) (rs : ReportStatus) (t : Teacher)
    (hGet : getReportStatusById st.reports sid = some rs)
    (hSt : rs.status ≠ InteractionStatus.awaitingReminder1H)
    (hT : findTeacherById st.teachers rs.teacherId = some t) :
    ∃ st', processTeacherNoResponse st now sid = .ok st' ∧
      getReportStatusById st'.reports sid =
        some { rs with status := InteractionStatus.awaitingReminder1H,
                       remindAt := some (now + oneHour),
                       updatedAt := now } ∧
      st'.sent = st.sent ++ [⟨t.telegramId, MsgTag.noAck⟩] ∧
      st'.teachers = st.teachers ∧ st'.cycles = st.cycles ∧
      st'.reports.map keyOf = st.reports.map keyOf := by
  have hGet' : st.reports.find? (fun r => r.id == sid) = some rs := hGet
  have hIdEq : (rs.id == sid) = true := by simpa using List.find?_some hGet'
  have hMem : rs ∈ st.reports := List.mem_of_find?_eq_some hGet'
  have hAny : (st.reports.any fun r => r.id == rs.id) = true := by
    rw [List.any_eq_true]
    exact ⟨rs, hMem, by simp⟩
  have hAny' : (st.reports.any fun r => r.id ==
      ({ rs with status := InteractionStatus.awaitingReminder1H,
                 remindAt := some (now + oneHour),
                 updatedAt := now } : ReportStatus).id) = true := hAny
  unfold processTeacherNoResponse
  simp only [hGet]
  rw [if_neg hSt]
  simp only [hT]
  unfold updateReportStatusFull
  rw [if_pos hAny']
  refine ⟨_, rfl, ?_, rfl, rfl, rfl, ?_⟩
  · rw [getReportStatusById_map _ _ _ (applyFullUpdate_id _ now), hGet]
    simp only [Option.map_some']
    unfold applyFullUpdate
    rw [if_pos (by simp)]
  · rw [List.map_map]
    exact List.map_congr_left fun r _ => applyFullUpdate_keyOf _ now r

/-- C1 witness: the amended behaviour at the concrete 'No' click of the
counterexample state. -/
theorem processNo_arms_reminder_witness :
    ∃ st', processTeacherNoResponse exStateNo 5 1 = .ok st' ∧
      getReportStatusById st'.reports 1 =
        some { exRowPending with
                 status := InteractionStatus.awaitingReminder1H,
                 remindAt := some (5 + oneHour), updatedAt := 5 } ∧
      st'.sent = exStateNo.sent ++ [⟨exTeacher.telegramId, MsgTag.noAck⟩] ∧
      st'.teachers = exStateNo.teachers ∧ st'.cycles = exStateNo.cycles ∧
      st'.reports.map keyOf = exStateNo.reports.map keyOf :=
  processNo_arms_reminder exStateNo 5 1 exRowPending exTeacher
    (by decide) (by decide) (by decide)

/-! C2 — `ProcessScheduled1HourReminders`. -/

/-- Every row the due-reminder query returns is stored and carries the
target status. -/
theorem listDueReminders_mem (reports : List ReportStatus)
    (target : InteractionStatus) (now : Time) :
    ∀ rs ∈ listDueReminders reports target now,
      rs ∈ reports ∧ rs.status = target := by
  intro rs h
  have h' := List.mem_filter.mp h
  refine ⟨h'.1, ?_⟩
  have hb := h'.2
  simp only [Bool.and_eq_true, beq_iff_eq] at hb
  exact hb.1

/-- `sendSpecificReportQuestion` refuses every row whose status is not
PENDING_QUESTION (under the unique-triple store invariant the row fetched
by composite key is the row itself). -/
theorem sendSpecific_refuses_nonpending (st : ServiceState) (t : Teacher)
    (rs : ReportStatus) (now : Time)
    (hU : uniqueTriples st.reports) (hMem : rs ∈ st.reports)
    (hT : t.id = rs.teacherId)
    (hSt : rs.status ≠ InteractionStatus.pendingQuestion) :
    ∃ e, sendSpecificReportQuestion st t rs.cycleId rs.reportKey now =
      .error e := by
  unfold sendSpecificReportQuestion
  cases hg : getReportStatus st.reports t.id rs.cycleId rs.reportKey with
  | none => exact ⟨_, rfl⟩
  | some r =>
      have hg' : st.reports.find? (fun x => x.teacherId == t.id &&
          x.cycleId == rs.cycleId && x.reportKey == rs.reportKey) =
          some r := hg
      have hr : r ∈ st.reports := List.mem_of_find?_eq_some hg'
      have hpred := List.find?_some hg'
      simp only [Bool.and_eq_true, beq_iff_eq] at hpred
      have htr : tripleOf r = tripleOf rs := by
        simp [tripleOf, hpred.1.1, hpred.1.2, hpred.2, hT]
      have hrrs : r = rs := List.inj_on_of_nodup_map hU hr hMem htr
      subst hrrs
      simp only [hg]
      rw [if_pos (by simpa using hSt)]
      exact ⟨_, rfl⟩

/-- One iteration of the 1-hour sweep leaves the state untouched: the due
row's status is AWAITING_REMINDER_1H, so the send helper errors out and the
iteration skips the row. -/
theorem process1HourReminderRow_noop (st : ServiceState) (now : Time)
    (rs : ReportStatus) (hU : uniqueTriples st.reports)
    (hMem : rs ∈ st.reports)
    (hSt : rs.status = InteractionStatus.awaitingReminder1H) :
    process1HourReminderRow now st rs = st := by
  unfold process1HourReminderRow
  cases ht : findTeacherById st.teachers rs.teacherId with
  | none => rfl
  | some t =>
      have ht' : st.teachers.find? (fun x => x.id == rs.teacherId) =
          some t := ht
      have hT : t.id = rs.teacherId := by
        simpa using List.find?_some ht'
      obtain ⟨e, he⟩ := sendSpecific_refuses_nonpending st t rs now hU hMem
        hT (by simp [hSt])
      simp only [ht, he]

/-- A fold whose step fixes the start state returns the start state. -/
theorem foldl_fixed {α : Type} (f : ServiceState → α → ServiceState)
    (st : ServiceState) :
    ∀ l : List α, (∀ x ∈ l, f st x = st) → l.foldl f st = st := by
  intro l
  induction l with
  | nil => intro _; rfl
  | cons x xs ih =>
      intro h
      rw [List.foldl_cons, h x (by simp)]
      exact ih fun y hy => h y (by simp [hy])

/-- Under the unique-triple store invariant, a full pass of the 1-hour
reminder sweep changes nothing: no state change, no message sent. -/
theorem processScheduled1HourReminders_noop (st : ServiceState) (now : Time)
    (hU : uniqueTriples st.reports) :
    processScheduled1HourReminders st now = .ok st := by
  unfold processScheduled1HourReminders
  congr 1
  apply foldl_fixed
  intro rs hrs
  obtain ⟨hmem, hstat⟩ := listDueReminders_mem _ _ _ rs hrs
  exact process1HourReminderRow_noop st now rs hU hmem hstat

/-- C2: at the concrete failing input — the TABLE_1 row armed by a 'No'
answer at time 0 (status AWAITING_REMINDER_1H, remind_at = 60), swept 61
minutes later — the row IS returned by the due-reminder query, yet the
sweep pass returns the state completely unchanged: the question is not
re-sent, `remind_at` is not cleared, `last_notified_at` is not refreshed,
because `sendSpecificReportQuestion` rejects every row whose status is not
PENDING_QUESTION. -/
theorem sweep1h_no_effect_at_61 :
    listDueReminders exStateDue.reports
        InteractionStatus.awaitingReminder1H 61 = [exRowDue] ∧
    processScheduled1HourReminders exStateDue 61 = .ok exStateDue :=
  ⟨by decide, by rfl⟩

/-! C8 and C3 — `InitiateNotificationProcess` idempotency invariants. -/

/-- A successful bulk insert appends a suffix of rows whose triples were
all absent from the starting table, and keeps the triples free of
duplicates. -/
theorem bulkCreateGo_ok_shape (now : Time) (batch : List NewReportStatus) :
    ∀ acc l' : List ReportStatus,
      (acc.map tripleOf).Nodup →
      bulkCreateGo acc now batch = .ok l' →
      ∃ added, l' = acc ++ added ∧
        (∀ s ∈ added, tripleOf s ∉ acc.map tripleOf) ∧
        (l'.map tripleOf).Nodup := by
  induction batch with
  | nil =>
      intro acc l' hN h
      unfold bulkCreateGo at h
      injection h with h
      subst h
      exact ⟨[], by simp, by simp, by simpa using hN⟩
  | cons b rest ih =>
      intro acc l' hN h
      unfold bulkCreateGo at h
      by_cases hdup : (acc.any fun r =>
          r.teacherId == b.teacherId && r.cycleId == b.cycleId &&
            r.reportKey == b.reportKey) = true
      · rw [if_pos hdup] at h
        exact Except.noConfusion h
      · rw [if_neg hdup] at h
        have hnotmem : (b.teacherId, b.cycleId, b.reportKey) ∉
            acc.map tripleOf := by
          intro hmem
          apply hdup
          rw [List.any_eq_true]
          obtain ⟨r, hr, heq⟩ := List.mem_map.mp hmem
          simp only [tripleOf, Prod.mk.injEq] at heq
          exact ⟨r, hr, by simp [heq.1, heq.2.1, heq.2.2]⟩
        have htr : tripleOf (insertedRow (nextReportId acc) b now) =
            (b.teacherId, b.cycleId, b.reportKey) := rfl
        have hN' : (((acc ++ [insertedRow (nextReportId acc) b now]).map
            tripleOf)).Nodup := by
          rw [List.map_append]
          simp only [List.map_cons, List.map_nil, htr]
          rw [List.nodup_append]
          exact ⟨hN, List.nodup_singleton _, by
            intro x hx hxx
            rcases List.mem_singleton.mp hxx with rfl
            exact hnotmem hx⟩
        obtain ⟨added, h1, h2, h3⟩ := ih _ _ hN' h
        refine ⟨insertedRow (nextReportId acc) b now :: added, ?_, ?_, h3⟩
        · rw [h1, List.append_assoc, List.singleton_append]
        · intro s hs
          rcases List.mem_cons.mp hs with rfl | hs'
          · rw [htr]
            exact hnotmem
          · intro hmem
            exact h2 s hs' (by
              rw [List.map_append]
              exact List.mem_append_left _ hmem)

/-- `initiateReports` appends (possibly zero) fresh rows: every added row's
triple was absent before, and the unique-triple invariant is preserved. -/
theorem initiateReports_shape (reports : List ReportStatus) (cycleId : Int)
    (actives : List Teacher) (keys : List ReportKey) (now : Time)
    (hU : uniqueTriples reports) :
    ∃ added, initiateReports reports cycleId actives keys now =
        reports ++ added ∧
      (∀ s ∈ added, tripleOf s ∉ reports.map tripleOf) ∧
      uniqueTriples (reports ++ added) := by
  unfold initiateReports
  by_cases hemp : (stageMissingStatuses reports cycleId actives keys).isEmpty
  · rw [if_pos hemp]
    exact ⟨[], by simp, by simp, by simpa using hU⟩
  · rw [if_neg hemp]
    cases hb : bulkCreateReportStatuses reports
        (stageMissingStatuses reports cycleId actives keys) now with
    | ok rows =>
        have hb' : bulkCreateGo reports now
            (stageMissingStatuses reports cycleId actives keys) =
            .ok rows := hb
        obtain ⟨added, h1, h2, h3⟩ :=
          bulkCreateGo_ok_shape now _ reports rows hU hb'
        subst h1
        exact ⟨added, rfl, h2, h3⟩
    | error e =>
        exact ⟨[], by simp, by simp, by simpa using hU⟩

/-- One step of the initial-question loop never changes the teachers or
cycles tables, nor any row id or triple of the report table. -/
theorem sendInitialTable1_frame (cycleId : Int) (now : Time)
    (st : ServiceState) (t : Teacher) :
    (sendInitialTable1 cycleId now st t).reports.map keyOf =
        st.reports.map keyOf ∧
      (sendInitialTable1 cycleId now st t).cycles = st.cycles ∧
      (sendInitialTable1 cycleId now st t).teachers = st.teachers := by
  unfold sendInitialTable1
  cases hg : getReportStatus st.reports t.id cycleId
      ReportKey.table1Lessons with
  | none => exact ⟨rfl, rfl, rfl⟩
  | some rs =>
      dsimp only
      by_cases hs : rs.status = InteractionStatus.pendingQuestion
      · rw [if_pos hs]
        cases hu : updateReportStatusFull st.reports
            { rs with lastNotifiedAt := some now } now with
        | error e =>
            simp only [hu]
            refine ⟨?_, ?_, ?_⟩ <;> trivial
        | ok reports' =>
            simp only [hu]
            refine ⟨updateReportStatusFull_ok_keyOf _ _ _ _ hu, ?_, ?_⟩ <;> trivial
      · rw [if_neg hs]
        refine ⟨?_, ?_, ?_⟩ <;> trivial

/-- The initial-question loop as a whole never changes the teachers or
cycles tables, nor any row id or triple. -/
theorem foldl_sendInitial_frame (cycleId : Int) (now : Time)
    (ts : List Teacher) :
    ∀ st : ServiceState,
      ((ts.foldl (sendInitialTable1 cycleId now) st).reports.map keyOf =
          st.reports.map keyOf) ∧
        (ts.foldl (sendInitialTable1 cycleId now) st).cycles = st.cycles ∧
        (ts.foldl (sendInitialTable1 cycleId now) st).teachers =
          st.teachers := by
  induction ts with
  | nil => exact fun st => ⟨rfl, rfl, rfl⟩
  | cons t ts ih =>
      intro st
      rw [List.foldl_cons]
      obtain ⟨h1, h2, h3⟩ := ih (sendInitialTable1 cycleId now st t)
      obtain ⟨g1, g2, g3⟩ := sendInitialTable1_frame cycleId now st t
      exact ⟨h1.trans g1, h2.trans g2, h3.trans g3⟩

/-- Identifying-field-preserving table changes preserve the unique-triple
invariant. -/
theorem uniqueTriples_of_keyOf_eq (l l' : List ReportStatus)
    (h : l'.map keyOf = l.map keyOf) (hU : uniqueTriples l) :
    uniqueTriples l' := by
  unfold uniqueTriples at *
  rw [map_tripleOf_eq, h, ← map_tripleOf_eq]
  exact hU

/-- C8: one `initiate` run on a store satisfying the unique
(teacher_id, cycle_id, report_key) invariant (i) preserves that invariant —
so repeated runs never produce a second row for a pair — (ii) keeps every
pre-existing row (same id and triple: existing rows are never re-created),
(iii) adds rows only for triples that had no row before, and (iv) the
persisted schema carries the `teacher_cycle_report_unique` constraint on
exactly those three columns. -/
theorem initiate_row_uniqueness (st : ServiceState) (now : Time)
    (ty : CycleType) (cycleDate : Timestamp)
    (hU : uniqueTriples st.reports) :
    uniqueTriples (initiateNotificationProcess st now ty cycleDate).reports ∧
    (∀ r ∈ st.reports,
        ∃ r' ∈ (initiateNotificationProcess st now ty cycleDate).reports,
          keyOf r' = keyOf r) ∧
    (∀ r' ∈ (initiateNotificationProcess st now ty cycleDate).reports,
        (∃ r ∈ st.reports, keyOf r' = keyOf r) ∨
          tripleOf r' ∉ st.reports.map tripleOf) ∧
    (∃ uc ∈ initSchemaUniqueConstraints,
        uc.table = "teacher_report_statuses" ∧
        uc.columns = ["teacher_id", "cycle_id", "report_key"]) := by
  unfold initiateNotificationProcess
  by_cases h1 : (listActiveTeachers st.teachers).isEmpty
  · rw [if_pos h1]
    exact ⟨hU, fun r hr => ⟨r, hr, rfl⟩, fun r' hr' => .inl ⟨r', hr', rfl⟩,
      by decide⟩
  · rw [if_neg h1]
    by_cases h2 : (determineReportsForCycle ty).isEmpty
    · rw [if_pos h2]
      exact ⟨hU, fun r hr => ⟨r, hr, rfl⟩, fun r' hr' => .inl ⟨r', hr', rfl⟩,
        by decide⟩
    · rw [if_neg h2]
      obtain ⟨added, hAdd, hFresh, hNod⟩ := initiateReports_shape st.reports
        (resolveOrCreateCycle st.cycles cycleDate ty now).1.id
        (listActiveTeachers st.teachers) (determineReportsForCycle ty) now hU
      rw [hAdd]
      have hKey' : ((listActiveTeachers st.teachers).foldl
          (sendInitialTable1
            (resolveOrCreateCycle st.cycles cycleDate ty now).1.id now)
          { st with
              cycles := (resolveOrCreateCycle st.cycles cycleDate ty now).2,
              reports := st.reports ++ added }).reports.map keyOf =
          (st.reports ++ added).map keyOf :=
        (foldl_sendInitial_frame
          (resolveOrCreateCycle st.cycles cycleDate ty now).1.id now
          (listActiveTeachers st.teachers)
          { st with
              cycles := (resolveOrCreateCycle st.cycles cycleDate ty now).2,
              reports := st.reports ++ added }).1
      refine ⟨?_, ?_, ?_, by decide⟩
      · exact uniqueTriples_of_keyOf_eq _ _ hKey' hNod
      · intro r hr
        have hmem : keyOf r ∈ (st.reports ++ added).map keyOf := by
          rw [List.map_append]
          exact List.mem_append_left _ (List.mem_map_of_mem keyOf hr)
        rw [← hKey'] at hmem
        obtain ⟨r', hr', he⟩ := List.mem_map.mp hmem
        exact ⟨r', hr', he⟩
      · intro r' hr'
        have hmem : keyOf r' ∈ (st.reports ++ added).map keyOf := by
          rw [← hKey']
          exact List.mem_map_of_mem keyOf hr'
        rw [List.map_append] at hmem
        rcases List.mem_append.mp hmem with hl | hrght
        · obtain ⟨r, hr, he⟩ := List.mem_map.mp hl
          exact .inl ⟨r, hr, he.symm⟩
        · obtain ⟨s, hsmem, he⟩ := List.mem_map.mp hrght
          refine .inr ?_
          have htrs : tripleOf r' = tripleOf s := by
            rw [tripleOf_eq_snd_keyOf, tripleOf_eq_snd_keyOf, he]
          rw [htrs]
          exact hFresh s hsmem

/-- C8 witness: the invariant bundle at a concrete fresh state. -/
theorem initiate_row_uniqueness_witness :
    uniqueTriples
      (initiateNotificationProcess exStateInit 0 .midMonth exTs).reports :=
  (initiate_row_uniqueness exStateInit 0 .midMonth exTs
    (by unfold uniqueTriples; decide)).1

/-- The cycles table after `initiate` is exactly the one the find-or-create
resolution leaves: the rest of the operation never touches it. -/
theorem initiate_cycles_eq (st : ServiceState) (now : Time) (ty : CycleType)
    (cycleDate : Timestamp) :
    (initiateNotificationProcess st now ty cycleDate).cycles =
      (resolveOrCreateCycle st.cycles cycleDate ty now).2 := by
  unfold initiateNotificationProcess
  by_cases h1 : (listActiveTeachers st.teachers).isEmpty
  · rw [if_pos h1]
  · rw [if_neg h1]
    by_cases h2 : (determineReportsForCycle ty).isEmpty
    · rw [if_pos h2]
    · rw [if_neg h2]
      exact (foldl_sendInitial_frame _ now _ _).2.1

/-- `GetCycleByDateAndType` fails only with ErrCycleNotFound. -/
theorem getCycleByDateAndType_error_elim (cycles : List Cycle)
    (t : Timestamp) (ty : CycleType) (e : RepoErr)
    (h : getCycleByDateAndType cycles t ty = .error e) :
    e = .cycleNotFound := by
  unfold getCycleByDateAndType at h
  cases hp : pickLatestCreated (cycles.filter fun x =>
      x.cycleDate == (dateOnly t).date && x.type == ty) with
  | some c =>
      rw [hp] at h
      exact Except.noConfusion h
  | none =>
      rw [hp] at h
      injection h with h
      exact h.symm

/-- The sequential find-or-create keeps at most one cycle row per
(cycle_date, cycle_type) pair: a row is inserted only after the lookup
reported that no row matches the pair. -/
theorem resolveOrCreateCycle_pairUnique (cycles : List Cycle)
    (d : Timestamp) (ty : CycleType) (now : Time)
    (hC : cyclePairUnique cycles) :
    cyclePairUnique (resolveOrCreateCycle cycles d ty now).2 := by
  unfold resolveOrCreateCycle
  cases hg : getCycleByDateAndType cycles d ty with
  | ok c => exact hC
  | error e =>
      have he := getCycleByDateAndType_error_elim cycles d ty e hg
      subst he
      have hnone := (getCycleByDateAndType_error_iff cycles d ty).mp hg
      unfold createCycle cyclePairUnique
      dsimp only
      rw [List.map_append]
      simp only [List.map_cons, List.map_nil]
      rw [List.nodup_append]
      refine ⟨hC, List.nodup_singleton _, ?_⟩
      intro x hx hxx
      rcases List.mem_singleton.mp hxx with rfl
      obtain ⟨c', hc', hpair⟩ := List.mem_map.mp hx
      simp only [Prod.mk.injEq, dateOnly_date] at hpair
      exact hnone c' hc' ⟨hpair.1, hpair.2⟩

/-- C3 counterexample: in the persisted schema of
migrations/000001_init_schema.up.sql, the only index on
notification_cycles(cycle_date, cycle_type) is a plain non-unique index,
and no UNIQUE constraint covers the `notification_cycles` table at all —
the schema does not enforce the pair as a unique key. -/
theorem cycles_pair_index_not_unique :
    (∃ ix ∈ initSchemaIndexes, ix.table = "notification_cycles" ∧
        ix.columns = ["cycle_date", "cycle_type"] ∧ ix.unique = false) ∧
    (∀ uc ∈ initSchemaUniqueConstraints,
        uc.table ≠ "notification_cycles") := by
  decide

/-- C3 (amended): in the sequential model the find-or-create resolution of
`initiate` preserves "at most one Cycle row per (cycle_date, cycle_type)
pair" — a row is created only when the lookup found none — but the
persisted schema does NOT enforce the pair as a unique key: its only index
on those columns is non-unique and the table carries no UNIQUE constraint,
so the invariant is not schema-guaranteed (concurrent creators could break
it). -/
theorem cycle_pair_uniqueness (st : ServiceState) (now : Time)
    (ty : CycleType) (cycleDate : Timestamp)
    (hC : cyclePairUnique st.cycles) :
    cyclePairUnique
        (initiateNotificationProcess st now ty cycleDate).cycles ∧
    (∀ ix ∈ initSchemaIndexes, ix.table = "notification_cycles" →
        ix.unique = false) ∧
    (∀ uc ∈ initSchemaUniqueConstraints,
        uc.table ≠ "notification_cycles") := by
  refine ⟨?_, by decide, by decide⟩
  rw [initiate_cycles_eq]
  exact resolveOrCreateCycle_pairUnique st.cycles cycleDate ty now hC

/-- C3 witness: the preserved invariant at a concrete fresh state. -/
theorem cycle_pair_uniqueness_witness :
    cyclePairUnique
      (initiateNotificationProcess exStateInit 0 .midMonth exTs).cycles :=
  (cycle_pair_uniqueness exStateInit 0 .midMonth exTs
    (by unfold cyclePairUnique; decide)).1

end TNB
